import Mathlib

/-
  Verification of the grove workspace lifecycle engine.

  The definitions below are a shallow embedding of the TypeScript sources:
    - src/services/git.service.ts   (sanitizeBranchName, getWorktrees parser,
                                     fetchRemote)
    - src/services/config.service.ts (readProjectConfig, pruneCommand)
    - src/commands/delete.ts         (deleteCommand)
    - src/commands/setup.ts          (setupCommand)
    - src/commands/init.ts           (checkoutCommand resolution)

  External subprocess queries (git existence checks, repo roots, branch facts,
  merge-ancestry, cleanliness, user confirmation, hook exit status) are
  modelled as fields of an environment record `GroveEnv`; the control flow,
  string manipulation and parsing logic of the sources are embedded as Lean
  functions over that environment.  Mutating external calls are recorded as an
  `Event` trace so that "performs no mutation" claims are statements about the
  trace.
-/

/-! ## Name sanitizer (git.service.ts, sanitizeBranchName) -/

/-- Character class `[a-z0-9-]` of the sanitizer regexes, by code point. -/
def allowedChar (c : Char) : Bool :=
  (97 ≤ c.toNat && c.toNat ≤ 122) || (48 ≤ c.toNat && c.toNat ≤ 57) || c.toNat == 45

/-- One step of the first replace of the sanitizer, global over the pattern
`[^a-z0-9-]`: a character outside the class is replaced by a dash. -/
def replaceChar (c : Char) : Char := if allowedChar c then c else '-'

/-- Embedding of the second replace of the sanitizer, global over the pattern
`-+`: each maximal run of dashes is collapsed to a single dash, scanning left
to right. -/
def collapseDashes : List Char → List Char
  | [] => []
  | [c] => [c]
  | a :: b :: t => if a = '-' ∧ b = '-' then collapseDashes (b :: t) else a :: collapseDashes (b :: t)

/-- Removes one leading dash, the `^-` half of the final replace of the
sanitizer. -/
def trimLeadDash : List Char → List Char
  | [] => []
  | c :: t => if c = '-' then t else c :: t

/-- Embedding of the final replace of the sanitizer, global over the pattern
`^-|-$`: removes one leading and one trailing dash. -/
def trimDashes (s : List Char) : List Char :=
  (trimLeadDash ((trimLeadDash s).reverse)).reverse

/-- Pipeline of `sanitizeBranchName` on the character list: lower-case, then
replace disallowed characters by dashes, collapse dash runs, trim boundary
dashes. -/
def sanitizeList (s : List Char) : List Char :=
  trimDashes (collapseDashes ((s.map Char.toLower).map replaceChar))

/-- Embedding of `GitService.sanitizeBranchName` (git.service.ts:274-280). -/
def sanitizeBranchName (s : String) : String := ⟨sanitizeList s.data⟩

/-- Dash-run freedom: no two consecutive characters are both dashes. -/
def NoDD (l : List Char) : Prop := List.Chain' (fun a b => ¬(a = '-' ∧ b = '-')) l

/-! ## String helpers shared by the embeddings -/

/-- Embedding of JavaScript `String.prototype.startsWith`. -/
def strStartsWith (s pre : String) : Bool := pre.data.isPrefixOf s.data

/-- Removal of the first occurrence of `pat` (replacement by the empty
string), on character lists. -/
def replaceFirstAux (pat : List Char) : List Char → List Char
  | [] => []
  | c :: rest =>
    if pat.isPrefixOf (c :: rest) then (c :: rest).drop pat.length
    else c :: replaceFirstAux pat rest

/-- Embedding of JavaScript `s.replace(pat, "")` for a plain-string `pat`:
only the first occurrence is removed. -/
def replaceFirst (s pat : String) : String := ⟨replaceFirstAux pat.data s.data⟩

/-- Embedding of JavaScript `String.prototype.trim`. -/
def strTrim (s : String) : String :=
  ⟨((s.data.dropWhile Char.isWhitespace).reverse.dropWhile Char.isWhitespace).reverse⟩

/-- Embedding of JavaScript string truthiness for an optional string field:
`undefined` and the empty string are falsy. -/
def strFalsy : Option String → Bool
  | none => true
  | some s => s == ""

/-- Embedding of `path.join(a, b)` for the simple relative components used by
the sources (no normalization is needed by any claim). -/
def joinPath (a b : String) : String := a ++ "/" ++ b

/-! ## Data model -/

/-- Embedding of the `WorktreeInfo` record (types.ts).  `head` and `branch`
are optional because `getWorktrees` builds records incrementally and casts a
partial record, so either field may be absent. -/
structure WorktreeInfo where
  path : String
  head : Option String := none
  branch : Option String := none
  isMain : Bool := false
deriving DecidableEq

/-- Embedding of `ProjectConfig` (types.ts), with the three hook commands
flattened into optional fields. -/
structure ProjectConfig where
  projectId : String := ""
  project : String := ""
  packageManager : String := ""
  copyFiles : List String := []
  symlinkFiles : List String := []
  postSetup : Option String := none
  preDelete : Option String := none
  postDelete : Option String := none
deriving DecidableEq

/-! ## Repository introspector: getWorktrees (git.service.ts:61-105) -/

/-- State of the porcelain-output line scanner: the `currentWorktree` partial
record of `getWorktrees`. -/
structure PartialWorktree where
  path : Option String := none
  head : Option String := none
  branch : Option String := none
  isMain : Bool := false
deriving DecidableEq

/-- Embedding of the `if (currentWorktree.path) worktrees.push(...)` flush:
the record is emitted only when its path is truthy. -/
def flushWorktree (cur : PartialWorktree) : List WorktreeInfo :=
  match cur.path with
  | some p =>
    if p == "" then []
    else [{ path := p, head := cur.head, branch := cur.branch, isMain := cur.isMain }]
  | none => []

/-- Embedding of the line-classification loop of `getWorktrees`: a `worktree `
line flushes the previous record and starts a new one, `HEAD `, `branch ` and
`bare` lines update the current record. -/
def parseWorktreeLines : List String → PartialWorktree → List WorktreeInfo
  | [], cur => flushWorktree cur
  | line :: rest, cur =>
    if strStartsWith line "worktree " then
      flushWorktree cur ++ parseWorktreeLines rest { path := some (replaceFirst line "worktree ") }
    else if strStartsWith line "HEAD " then
      parseWorktreeLines rest { cur with head := some (replaceFirst line "HEAD ") }
    else if strStartsWith line "branch " then
      parseWorktreeLines rest { cur with branch := some (replaceFirst line "branch refs/heads/") }
    else if line == "bare" then
      parseWorktreeLines rest { cur with isMain := true }
    else
      parseWorktreeLines rest cur

/-- Embedding of the marking loop after the block scan: every record that is
not already primary is marked primary exactly when its branch equals the
resolved default branch. -/
def markMain (mainBranch : String) (ws : List WorktreeInfo) : List WorktreeInfo :=
  ws.map (fun w => if w.isMain then w else { w with isMain := w.branch == some mainBranch })

/-- Full embedding of `getWorktrees` on the porcelain output lines: filter
blank lines, run the block scanner, then mark the primary record by default
branch name. -/
def getWorktreesModel (lines : List String) (mainBranch : String) : List WorktreeInfo :=
  markMain mainBranch (parseWorktreeLines (lines.filter (fun l => !(strTrim l == ""))) {})

/-! ## Config collaborator: readProjectConfig (config.service.ts:21-37) -/

/-- Abstract content of the configuration file as seen through
`file.json()` followed by `ProjectConfigSchema.parse`: either both steps
succeed with a config, or one of them throws. -/
inductive ConfigFileContent where
  | malformed
  | wellFormed (c : ProjectConfig)
deriving DecidableEq

/-- Embedding of `ConfigService.readProjectConfig`: `null` when the file does
not exist, the parsed config when it parses and validates, and a wrapped
error otherwise (every exception of the `try` block is re-thrown). -/
def readProjectConfig (fs : String → Option ConfigFileContent) (projectPath : String) :
    Except String (Option ProjectConfig) :=
  match fs (joinPath projectPath ".grove.json") with
  | none => .ok none
  | some ConfigFileContent.malformed => .error "Failed to read project config"
  | some (ConfigFileContent.wellFormed c) => .ok (some c)

/-! ## Environment of external collaborators

Subprocess queries and interactive collaborators are oracles supplied by the
environment; the orchestration logic itself is embedded below.  Branch facts
(`getCurrentBranch`, `getMainBranch`, `isBranchMerged`) answer git queries and
may vary freely, so every theorem about a flow is relative to one fixed
environment, matching the single-invocation model of the sources. -/

/-- Oracles for the external collaborators of one command invocation. -/
structure GroveEnv where
  cwd : String
  pathExists : String → Bool
  isGitRepository : String → Bool
  getRepoRoot : String → Except String String
  getCurrentBranch : String → Except String String
  getMainBranch : String → Except String String
  worktrees : List WorktreeInfo
  readConfig : String → Except String (Option ProjectConfig)
  resolvePath : String → String
  resolveFrom : String → String → String
  remoteConfigured : Bool
  fetchOk : Bool
  remoteMainExists : Bool
  isBranchMerged : String → String → Bool
  isClean : String → Bool
  confirm : Bool
  hookOk : String → Bool

/-- Mutating external calls performed by a flow, in order.  A flow whose
event list is empty has performed no mutation: no hook ran, no worktree or
branch was removed, nothing was created. -/
inductive Event where
  | runHook (name : String)
  | deleteWorktree (path : String)
  | pruneWorktrees
  | deleteBranch (branch : String) (force : Bool)
  | createDirectory (path : String)
  | createWorktree (path : String) (branch : String)
  | copyFiles
  | symlinkFiles
deriving DecidableEq

/-- Outcome of one command invocation.  `ok`, `okPath`, `abortUnmerged`,
`cancelled` and `dryRun` are the distinct clean (exit 0) returns of the
sources; `error` is a thrown exception. -/
inductive FlowResult where
  | ok
  | okPath (path : String)
  | abortUnmerged
  | cancelled
  | dryRun (paths : List String)
  | error (msg : String)
deriving DecidableEq

/-- Embedding of `GitService.fetchRemote` (git.service.ts:240-253): a missing
remote is a silent no-op, a failing fetch throws. -/
def fetchRemote (remoteConfigured fetchOk : Bool) : Except String Unit :=
  if !remoteConfigured then .ok ()
  else if fetchOk then .ok () else .error "Failed to fetch"

/-- Embedding of `HookService.runHook`: no-op when no command is configured,
otherwise the command runs and a non-zero exit is a thrown error.  The
executed command is recorded as an event. -/
def runHook (hookOk : Bool) (cmd : Option String) (name : String) : Except String (List Event) :=
  match cmd with
  | none => .ok []
  | some _ => if hookOk then .ok [Event.runHook name] else .error ("Failed to run hook " ++ name)

/-! ## Delete flow (delete.ts) -/

/-- Embedding of the target-location block of `deleteCommand`
(delete.ts:16-59): no token resolves the current repository root; a token is
first tried as a direct path and then as the canonical per-project worktree
directory joined with the raw token. -/
def resolveDeleteTarget (env : GroveEnv) (pathArg : Option String) : Except String String :=
  match pathArg with
  | none =>
    if env.isGitRepository env.cwd then env.getRepoRoot env.cwd
    else .error "Current directory is not a git repository."
  | some p =>
    let resolvedPath := env.resolvePath p
    if env.pathExists resolvedPath then
      if env.isGitRepository resolvedPath then env.getRepoRoot resolvedPath
      else .error "Target path is not a git repository"
    else
      if env.isGitRepository env.cwd then
        match env.getRepoRoot env.cwd with
        | .error e => .error e
        | .ok repoRoot =>
          let configPath :=
            match env.worktrees.find? (fun w => w.isMain) with
            | some w => w.path
            | none => repoRoot
          match env.readConfig configPath with
          | .error e => .error e
          | .ok none => .error "No Grove configuration found. Run grove init first"
          | .ok (some config) =>
            let possiblePath :=
              env.resolveFrom configPath ("../" ++ config.project ++ "__worktrees/" ++ p)
            if env.pathExists possiblePath then
              if env.isGitRepository possiblePath then env.getRepoRoot possiblePath
              else .error "Target path is not a git repository"
            else
              .error ("Path does not exist: " ++ p ++ ". Tried both " ++ resolvedPath
                ++ " and " ++ possiblePath)
      else .error "Current directory is not a git repository."

/-- Embedding of `deleteCommand` (delete.ts:10-174).  Mutating subprocess
calls are modelled as succeeding and recorded as events; hook commands may
fail through the `hookOk` oracle. -/
def deleteCommand (env : GroveEnv) (pathArg : Option String) (force : Bool) :
    FlowResult × List Event :=
  match resolveDeleteTarget env pathArg with
  | .error e => (.error e, [])
  | .ok targetPath =>
    if env.pathExists targetPath then
      if env.isGitRepository targetPath then
        match env.getCurrentBranch targetPath with
        | .error e => (.error e, [])
        | .ok currentBranch =>
          if currentBranch = "" then (.error "Could not determine current branch", [])
          else
            match env.worktrees.find? (fun w => w.isMain) with
            | none => (.error "Could not find main worktree", [])
            | some mainWorktree =>
              match env.getMainBranch targetPath with
              | .error e => (.error e, [])
              | .ok mainBranch =>
                if currentBranch = mainBranch ∧ targetPath = mainWorktree.path then
                  (.error "Cannot delete the main worktree", [])
                else
                  match
                    (if force then Except.ok true
                     else
                       match fetchRemote env.remoteConfigured env.fetchOk with
                       | .error e => .error e
                       | .ok _ =>
                         Except.ok (env.isBranchMerged currentBranch
                           (if env.remoteMainExists then "origin/" ++ mainBranch
                            else mainBranch)))
                  with
                  | .error e => (.error e, [])
                  | .ok false => (.abortUnmerged, [])
                  | .ok true =>
                    match env.readConfig mainWorktree.path with
                    | .error e => (.error e, [])
                    | .ok none =>
                      (.error "No Grove configuration found. Run grove init first", [])
                    | .ok (some config) =>
                      if force = false ∧ env.confirm = false then (.cancelled, [])
                      else
                        match runHook (env.hookOk "preDelete") config.preDelete "preDelete" with
                        | .error e => (.error e, [])
                        | .ok ev1 =>
                          let ev2 := ev1 ++ [Event.deleteWorktree targetPath,
                            Event.pruneWorktrees, Event.deleteBranch currentBranch force]
                          match runHook (env.hookOk "postDelete") config.postDelete "postDelete" with
                          | .error e => (.error e, ev2)
                          | .ok ev3 => (.ok, ev2 ++ ev3)
      else (.error "Target path is not a git repository", [])
    else (.error ("Path does not exist: " ++ targetPath), [])

/-! ## Checkout resolution (init.ts, checkoutCommand) -/

/-- Lower-casing of a string, embedding `String.prototype.toLowerCase` for
the case-insensitive branch fallback. -/
def strLower (s : String) : String := ⟨s.data.map Char.toLower⟩

/-- Embedding of the resolution logic of `checkoutCommand` (init.ts:112-173):
direct path, then canonical per-project worktree path joined with the raw
token, then a case-insensitive scan of worktree branches; `.ok none` models
deferral to the create flow when `shouldCreate` is set. -/
def resolveCheckoutTarget (env : GroveEnv) (target : String) (shouldCreate : Bool) :
    Except String (Option String) :=
  let normalizedTarget := strLower (strTrim target)
  if env.isGitRepository env.cwd then
    let resolvedPath := env.resolvePath target
    if env.pathExists resolvedPath then
      if env.isGitRepository resolvedPath then (env.getRepoRoot resolvedPath).map some
      else .error "Target path is not a git repository"
    else
      match env.getRepoRoot env.cwd with
      | .error e => .error e
      | .ok repoRoot =>
        let configPath :=
          match env.worktrees.find? (fun w => w.isMain) with
          | some w => w.path
          | none => repoRoot
        match env.readConfig configPath with
        | .error e => .error e
        | .ok none => .error "No Grove configuration found. Run grove init first"
        | .ok (some config) =>
          let possiblePath :=
            env.resolveFrom configPath ("../" ++ config.project ++ "__worktrees/" ++ target)
          if env.pathExists possiblePath then
            if env.isGitRepository possiblePath then (env.getRepoRoot possiblePath).map some
            else .error "Target path is not a git repository"
          else
            match env.worktrees.find? (fun w =>
                match w.branch with
                | some b => strLower b == normalizedTarget
                | none => false) with
            | some m =>
              if env.pathExists m.path then
                if env.isGitRepository m.path then (env.getRepoRoot m.path).map some
                else .error "Target path is not a git repository"
              else if shouldCreate then .ok none
              else
                .error ("Path does not exist: " ++ target ++ ". Tried both " ++ resolvedPath
                  ++ " and " ++ possiblePath ++ ". Use grove checkout -b " ++ target
                  ++ " to create it.")
            | none =>
              if shouldCreate then .ok none
              else
                .error ("Path does not exist: " ++ target ++ ". Tried both " ++ resolvedPath
                  ++ " and " ++ possiblePath ++ ". Use grove checkout -b " ++ target
                  ++ " to create it.")
  else .error "Current directory is not a git repository."

/-! ## Create flow (setup.ts, setupCommand) -/

/-- Embedding of `setupCommand` (setup.ts:90-158): validate, read config,
sanitize the feature name, compute the canonical target path, refuse when it
already exists, otherwise create, sync and run the post-setup hook (the
rollback of the catch block is recorded as a `deleteWorktree` event when the
hook fails). -/
def setupCommand (env : GroveEnv) (feature : String) : FlowResult × List Event :=
  if env.isGitRepository env.cwd then
    match env.readConfig env.cwd with
    | .error e => (.error e, [])
    | .ok none => (.error "Grove not initialized. Run grove init first.", [])
    | .ok (some config) =>
      let branchName := sanitizeBranchName feature
      let worktreeRoot := joinPath env.cwd ("../" ++ config.project ++ "__worktrees")
      let targetPath := joinPath worktreeRoot branchName
      if env.pathExists targetPath then
        (.error ("Target directory already exists: " ++ targetPath), [])
      else
        let ev1 := [Event.createDirectory worktreeRoot,
            Event.createWorktree targetPath branchName]
          ++ (if config.copyFiles.isEmpty then [] else [Event.copyFiles])
          ++ (if config.symlinkFiles.isEmpty then [] else [Event.symlinkFiles])
        match runHook (env.hookOk "postSetup") config.postSetup "postSetup" with
        | .error e => (.error e, ev1 ++ [Event.deleteWorktree targetPath])
        | .ok ev2 => (.okPath targetPath, ev1 ++ ev2)
  else (.error "Current directory is not a git repository.", [])

/-! ## Prune flow (config.service.ts, pruneCommand) -/

/-- Embedding of the candidate loop of `pruneCommand` (lines 260-273 of its
source): a worktree with a falsy branch is skipped, an unmerged branch is
skipped, everything else is prunable. -/
def prunableLoop (isMerged : String → Bool) : List WorktreeInfo → List WorktreeInfo
  | [] => []
  | w :: rest =>
    if strFalsy w.branch then prunableLoop isMerged rest
    else if isMerged (w.branch.getD "") then w :: prunableLoop isMerged rest
    else prunableLoop isMerged rest

/-- Embedding of the mutation loop of `pruneCommand`: per candidate, the
pre-delete hook, worktree removal, metadata prune, branch deletion (when the
branch is truthy) and the post-delete hook. -/
def pruneMutations (env : GroveEnv) (config : ProjectConfig) (force : Bool) :
    List WorktreeInfo → List Event → FlowResult × List Event
  | [], acc => (.ok, acc)
  | w :: rest, acc =>
    match runHook (env.hookOk "preDelete") config.preDelete "preDelete" with
    | .error e => (.error e, acc)
    | .ok e1 =>
      let acc2 := acc ++ e1 ++ [Event.deleteWorktree w.path, Event.pruneWorktrees]
        ++ (if strFalsy w.branch then [] else [Event.deleteBranch (w.branch.getD "") force])
      match runHook (env.hookOk "postDelete") config.postDelete "postDelete" with
      | .error e => (.error e, acc2)
      | .ok e2 => pruneMutations env config force rest (acc2 ++ e2)

/-- Embedding of `pruneCommand`: validate, prune stale metadata, list
worktrees, read config, resolve the default branch, fetch, choose the merge
target, build the candidate set, then dry-run, confirm and the batch of
delete mutations. -/
def pruneCommand (env : GroveEnv) (force dryRun : Bool) : FlowResult × List Event :=
  if env.isGitRepository env.cwd then
    match env.getRepoRoot env.cwd with
    | .error e => (.error e, [])
    | .ok repoRoot =>
      let ev0 := [Event.pruneWorktrees]
      match env.worktrees.find? (fun w => w.isMain) with
      | none => (.error "Could not find main worktree", ev0)
      | some mainWorktree =>
        match env.readConfig mainWorktree.path with
        | .error e => (.error e, ev0)
        | .ok none => (.error "Grove not initialized. Run grove init first.", ev0)
        | .ok (some config) =>
          match env.getMainBranch repoRoot with
          | .error e => (.error e, ev0)
          | .ok mainBranch =>
            match fetchRemote env.remoteConfigured env.fetchOk with
            | .error e => (.error e, ev0)
            | .ok _ =>
              let mergeTarget :=
                if env.remoteMainExists then "origin/" ++ mainBranch else mainBranch
              let prunable := prunableLoop (fun b => env.isBranchMerged b mergeTarget)
                (env.worktrees.filter (fun w => !w.isMain))
              if prunable.isEmpty then (.ok, ev0)
              else if dryRun then (.dryRun (prunable.map (fun w => w.path)), ev0)
              else if force = false ∧ env.confirm = false then (.cancelled, ev0)
              else pruneMutations env config force prunable ev0
  else (.error "Current directory is not a git repository.", [])
/-! ## Concrete environments used by witnesses and counterexamples -/

/-- Sample project configuration for concrete evaluations. -/
def demoConfig : ProjectConfig :=
  { projectId := "proj_12345678", project := "proj", packageManager := "bun" }

/-- Primary worktree of the sample repository. -/
def mainWt : WorktreeInfo :=
  { path := "/repo", head := some "h0", branch := some "main", isMain := true }

/-- Feature worktree of the sample repository, on branch `feature-x`. -/
def featWt : WorktreeInfo :=
  { path := "/ws/feature-x", head := some "h1", branch := some "feature-x" }

/-- Sample repository environment: a primary workspace at `/repo` on branch
`main` and a feature workspace at `/ws/feature-x`, no remote, unmerged
feature branch. -/
def baseEnv : GroveEnv :=
  { cwd := "/repo"
    pathExists := fun p => p == "/repo" || p == "/ws/feature-x"
    isGitRepository := fun p => p == "/repo" || p == "/ws/feature-x"
    getRepoRoot := fun p => .ok p
    getCurrentBranch := fun p => if p == "/ws/feature-x" then .ok "feature-x" else .ok "main"
    getMainBranch := fun _ => .ok "main"
    worktrees := [mainWt, featWt]
    readConfig := fun _ => .ok (some demoConfig)
    resolvePath := fun p => p
    resolveFrom := fun base rel => base ++ "/" ++ rel
    remoteConfigured := false
    fetchOk := true
    remoteMainExists := false
    isBranchMerged := fun _ _ => false
    isClean := fun _ => true
    confirm := true
    hookOk := fun _ => true }

/-- Variant of the sample environment whose feature workspace is detached:
`git branch --show-current` prints nothing there. -/
def envDetached : GroveEnv :=
  { baseEnv with getCurrentBranch := fun p => if p == "/ws/feature-x" then .ok "" else .ok "main" }

/-- Variant of the sample environment with a configured remote whose fetch
fails. -/
def envFetchFail : GroveEnv :=
  { baseEnv with remoteConfigured := true, fetchOk := false }

/-- Environment in which only the sanitized-token canonical workspace
directory exists on disk, while the raw token `Feature X` does not. -/
def envSanitizedOnly : GroveEnv :=
  { baseEnv with
    pathExists := fun p => p == "/repo" || p == "/repo/../proj__worktrees/feature-x"
    isGitRepository := fun p => p == "/repo" || p == "/repo/../proj__worktrees/feature-x" }

/-- Environment in which the canonical workspace directory built from the raw
token `Feature X` exists on disk. -/
def envRawCanonical : GroveEnv :=
  { baseEnv with
    pathExists := fun p => p == "/repo" || p == "/repo/../proj__worktrees/Feature X"
    isGitRepository := fun p => p == "/repo" || p == "/repo/../proj__worktrees/Feature X" }

/-- Environment in which the canonical target directory of the feature
`setup-existing` already exists as a valid workspace. -/
def envSetupExisting : GroveEnv :=
  { baseEnv with
    pathExists := fun p => p == "/repo" || p == "/repo/../proj__worktrees/setup-existing"
    isGitRepository := fun p => p == "/repo" || p == "/repo/../proj__worktrees/setup-existing" }

/-- Generic shape test for `Except` results. -/
def exceptIsOk {α : Type} : Except String α → Bool
  | .ok _ => true
  | .error _ => false

/-- Configuration-file oracle with a malformed `.grove.json` at `/repo`. -/
def fsMalformed : String → Option ConfigFileContent :=
  fun q => if q == "/repo/.grove.json" then some ConfigFileContent.malformed else none

/-- Porcelain lines of a repository whose bare root record and a worktree on
the default branch are both marked primary. -/
def twoPrimaryLines : List String :=
  ["worktree /repo", "bare", "worktree /repo/wt", "HEAD abc", "branch refs/heads/main"]

/-- Porcelain lines of a correctly configured repository with a single
record on the default branch. -/
def onePrimaryLines : List String :=
  ["worktree /repo", "HEAD abc", "branch refs/heads/main"]


theorem toLower_allowed (c : Char) (h : allowedChar c = true) : c.toLower = c := by
  simp [allowedChar, Bool.or_eq_true, Bool.and_eq_true, decide_eq_true_eq] at h
  simp only [Char.toLower]
  split
  · rename_i hcond
    simp at hcond
    omega
  · rfl

theorem replaceChar_allowed (c : Char) : allowedChar (replaceChar c) = true := by
  unfold replaceChar
  by_cases h : allowedChar c = true
  · simpa [h]
  · simp [h]
    decide

theorem replaceChar_id (c : Char) (h : allowedChar c = true) : replaceChar c = c := by
  simp [replaceChar, h]

theorem collapse_head : ∀ (b : Char) (t : List Char), (collapseDashes (b :: t)).head? = some b
  | b, [] => by simp [collapseDashes]
  | b, c :: t => by
    by_cases h : b = '-' ∧ c = '-'
    · rw [show collapseDashes (b :: c :: t) = collapseDashes (c :: t) by simp [collapseDashes, h]]
      rw [collapse_head c t]
      simp [h.1, h.2]
    · simp [collapseDashes, h]

theorem collapse_noDD : ∀ l : List Char, NoDD (collapseDashes l)
  | [] => by simp [collapseDashes, NoDD]
  | [c] => by simp [collapseDashes, NoDD]
  | a :: b :: t => by
    by_cases h : a = '-' ∧ b = '-'
    · simpa [collapseDashes, h] using collapse_noDD (b :: t)
    · rw [NoDD, show collapseDashes (a :: b :: t) = a :: collapseDashes (b :: t) by
        simp [collapseDashes, h]]
      rw [List.chain'_cons']
      refine ⟨?_, collapse_noDD (b :: t)⟩
      intro y hy
      rw [collapse_head b t] at hy
      simp at hy
      subst hy
      exact h

theorem collapse_sub : ∀ l : List Char, ∀ c ∈ collapseDashes l, c ∈ l
  | [] => by simp [collapseDashes]
  | [a] => by simp [collapseDashes]
  | a :: b :: t => by
    intro c hc
    by_cases h : a = '-' ∧ b = '-'
    · rw [show collapseDashes (a :: b :: t) = collapseDashes (b :: t) by
        simp [collapseDashes, h]] at hc
      exact List.mem_cons_of_mem a (collapse_sub (b :: t) c hc)
    · rw [show collapseDashes (a :: b :: t) = a :: collapseDashes (b :: t) by
        simp [collapseDashes, h]] at hc
      rcases List.mem_cons.mp hc with h1 | h2
      · exact h1 ▸ List.mem_cons_self a (b :: t)
      · exact List.mem_cons_of_mem a (collapse_sub (b :: t) c h2)

theorem collapse_id : ∀ l : List Char, NoDD l → collapseDashes l = l
  | [] => by simp [collapseDashes]
  | [c] => by simp [collapseDashes]
  | a :: b :: t => by
    intro h
    rw [NoDD, List.chain'_cons'] at h
    have hab : ¬(a = '-' ∧ b = '-') := h.1 b (by simp)
    rw [show collapseDashes (a :: b :: t) = a :: collapseDashes (b :: t) by
      simp [collapseDashes, hab]]
    rw [collapse_id (b :: t) h.2]

theorem noDD_reverse {l : List Char} (h : NoDD l) : NoDD l.reverse := by
  unfold NoDD at *
  rw [List.chain'_reverse]
  exact h.imp (fun a b hab => by tauto)

theorem noDD_tail : ∀ {l : List Char}, NoDD l → NoDD l.tail
  | [], h => h
  | _ :: _, h => (List.chain'_cons'.mp h).2

theorem trimLead_noDD {l : List Char} (h : NoDD l) : NoDD (trimLeadDash l) := by
  cases l with
  | nil => exact h
  | cons c t =>
    by_cases hc : c = '-'
    · simpa [trimLeadDash, hc] using noDD_tail h
    · simpa [trimLeadDash, hc] using h

theorem trimLead_sub {l : List Char} {c : Char} (h : c ∈ trimLeadDash l) : c ∈ l := by
  cases l with
  | nil => simpa [trimLeadDash] using h
  | cons a t =>
    by_cases ha : a = '-'
    · simp [trimLeadDash, ha] at h
      exact List.mem_cons_of_mem a h
    · simpa [trimLeadDash, ha] using h

theorem trimLead_head {l : List Char} (h : NoDD l) : (trimLeadDash l).head? ≠ some '-' := by
  cases l with
  | nil => simp [trimLeadDash]
  | cons c t =>
    by_cases hc : c = '-'
    · simp [trimLeadDash, hc]
      intro hcontra
      subst hc
      cases t with
      | nil => simp at hcontra
      | cons d t' =>
        simp at hcontra
        have := (List.chain'_cons'.mp h).1 d (by simp)
        exact this ⟨rfl, hcontra⟩
    · simp [trimLeadDash, hc]

theorem trimLead_getLast {l : List Char} (h : l.getLast? ≠ some '-') :
    (trimLeadDash l).getLast? ≠ some '-' := by
  cases l with
  | nil => simpa [trimLeadDash] using h
  | cons c t =>
    by_cases hc : c = '-'
    · simp only [trimLeadDash, if_pos hc]
      cases t with
      | nil => simp
      | cons d t' => simpa [List.getLast?_cons_cons] using h
    · simpa [trimLeadDash, hc] using h

theorem trimLead_id {l : List Char} (h : l.head? ≠ some '-') : trimLeadDash l = l := by
  cases l with
  | nil => rfl
  | cons c t =>
    simp at h
    simp [trimLeadDash, h]

theorem trim_head {l : List Char} (h : NoDD l) : (trimDashes l).head? ≠ some '-' := by
  unfold trimDashes
  rw [List.head?_reverse]
  exact trimLead_getLast (by rw [List.getLast?_reverse]; exact trimLead_head h)

theorem trim_getLast {l : List Char} (h : NoDD l) : (trimDashes l).getLast? ≠ some '-' := by
  unfold trimDashes
  rw [List.getLast?_reverse]
  exact trimLead_head (noDD_reverse (trimLead_noDD h))

theorem trim_noDD {l : List Char} (h : NoDD l) : NoDD (trimDashes l) :=
  noDD_reverse (trimLead_noDD (noDD_reverse (trimLead_noDD h)))

theorem trim_sub {l : List Char} {c : Char} (h : c ∈ trimDashes l) : c ∈ l := by
  unfold trimDashes at h
  rw [List.mem_reverse] at h
  have := trimLead_sub h
  rw [List.mem_reverse] at this
  exact trimLead_sub this

theorem trim_id {l : List Char} (h1 : l.head? ≠ some '-') (h2 : l.getLast? ≠ some '-') :
    trimDashes l = l := by
  unfold trimDashes
  rw [trimLead_id h1, trimLead_id (by rw [List.head?_reverse]; exact h2), List.reverse_reverse]

theorem sanitizeList_allowed (s : List Char) : ∀ c ∈ sanitizeList s, allowedChar c = true := by
  intro c hc
  unfold sanitizeList at hc
  have h1 := collapse_sub _ c (trim_sub hc)
  rcases List.mem_map.mp h1 with ⟨d, _, hd⟩
  exact hd ▸ replaceChar_allowed d

theorem sanitizeList_noDD (s : List Char) : NoDD (sanitizeList s) :=
  trim_noDD (collapse_noDD _)

theorem sanitizeList_head (s : List Char) : (sanitizeList s).head? ≠ some '-' :=
  trim_head (collapse_noDD _)

theorem sanitizeList_getLast (s : List Char) : (sanitizeList s).getLast? ≠ some '-' :=
  trim_getLast (collapse_noDD _)

theorem sanitizeList_idem (s : List Char) : sanitizeList (sanitizeList s) = sanitizeList s := by
  have hall := sanitizeList_allowed s
  have hmap1 : (sanitizeList s).map Char.toLower = sanitizeList s :=
    List.map_congr_left (fun c hc => toLower_allowed c (hall c hc)) |>.trans (List.map_id _)
  rw [show sanitizeList (sanitizeList s)
      = trimDashes (collapseDashes (((sanitizeList s).map Char.toLower).map replaceChar)) from rfl]
  rw [hmap1]
  have hmap2 : (sanitizeList s).map replaceChar = sanitizeList s :=
    List.map_congr_left (fun c hc => replaceChar_id c (hall c hc)) |>.trans (List.map_id _)
  rw [hmap2]
  rw [collapse_id _ (sanitizeList_noDD s)]
  exact trim_id (sanitizeList_head s) (sanitizeList_getLast s)

/-- C7: `sanitizeBranchName` is idempotent, its output uses only characters in
`[a-z0-9-]`, has no leading dash, no trailing dash and no two consecutive
dashes; the function is a total Lean function (hence deterministic) and
degenerate input (here the empty string) yields the empty string. -/
theorem sanitizeBranchName_spec (f : String) :
    sanitizeBranchName (sanitizeBranchName f) = sanitizeBranchName f
    ∧ (∀ c ∈ (sanitizeBranchName f).data, allowedChar c = true)
    ∧ (sanitizeBranchName f).data.head? ≠ some '-'
    ∧ (sanitizeBranchName f).data.getLast? ≠ some '-'
    ∧ NoDD (sanitizeBranchName f).data
    ∧ sanitizeBranchName "" = "" := by
  refine ⟨?_, ?_, ?_, ?_, ?_, rfl⟩
  · show (⟨sanitizeList (sanitizeList f.data)⟩ : String) = ⟨sanitizeList f.data⟩
    rw [sanitizeList_idem]
  · exact sanitizeList_allowed f.data
  · exact sanitizeList_head f.data
  · exact sanitizeList_getLast f.data
  · exact sanitizeList_noDD f.data

/-- Witness for C7 at the concrete input `"User Auth"`, whose sanitized form
is `"user-auth"`. -/
theorem sanitizeBranchName_spec_witness :
    sanitizeBranchName (sanitizeBranchName "User Auth") = sanitizeBranchName "User Auth"
    ∧ sanitizeBranchName "User Auth" = "user-auth" :=
  ⟨(sanitizeBranchName_spec "User Auth").1, by decide⟩

theorem markMain_countP (main : String) (ws : List WorktreeInfo) :
    ((markMain main ws).countP (fun w => w.isMain))
      = ws.countP (fun w => w.isMain || w.branch == some main) := by
  unfold markMain
  rw [List.countP_map]
  apply List.countP_congr
  intro w _
  by_cases h : w.isMain <;> simp [h, Function.comp]

/-! ## Claim theorems: delete flow -/

/-- C1: delete never removes the primary workspace.  For any input token
(path, branch name, or omitted) whose resolution is the primary workspace
path, and for either value of the force flag, `deleteCommand` refuses with an
error before performing any mutation (empty event trace).  The hypotheses say
the repository is correctly configured: the primary worktree record exists,
its path is a valid workspace, and the branch checked out there is the
resolved default branch. -/
theorem delete_protects_primary (env : GroveEnv) (pathArg : Option String) (force : Bool)
    (mw : WorktreeInfo) (mb : String)
    (hmw : env.worktrees.find? (fun w => w.isMain) = some mw)
    (hres : resolveDeleteTarget env pathArg = .ok mw.path)
    (hex : env.pathExists mw.path = true)
    (hgit : env.isGitRepository mw.path = true)
    (hcb : env.getCurrentBranch mw.path = .ok mb)
    (hmb : env.getMainBranch mw.path = .ok mb)
    (hnb : mb ≠ "") :
    deleteCommand env pathArg force = (.error "Cannot delete the main worktree", []) := by
  unfold deleteCommand
  rw [hres]
  simp [hex, hgit, hcb, hnb, hmw, hmb]

/-- Witness for C1: in the sample repository, deleting with no token from the
primary workspace is refused even with the force flag. -/
theorem delete_protects_primary_witness :
    deleteCommand baseEnv none true = (.error "Cannot delete the main worktree", []) :=
  delete_protects_primary baseEnv none true mainWt "main" rfl rfl
    rfl rfl rfl rfl (by decide)

/-- C2: without the force flag, a target whose branch is not merged into the
merge target makes `deleteCommand` terminate in the clean safety abort, with
an empty event trace: no hook ran and neither the worktree nor the branch was
removed. -/
theorem delete_unmerged_abort (env : GroveEnv) (pathArg : Option String)
    (t b : String) (mw : WorktreeInfo) (mb : String)
    (hres : resolveDeleteTarget env pathArg = .ok t)
    (hex : env.pathExists t = true)
    (hgit : env.isGitRepository t = true)
    (hcb : env.getCurrentBranch t = .ok b)
    (hb : b ≠ "")
    (hmw : env.worktrees.find? (fun w => w.isMain) = some mw)
    (hmb : env.getMainBranch t = .ok mb)
    (hnotmain : ¬(b = mb ∧ t = mw.path))
    (hfetch : fetchRemote env.remoteConfigured env.fetchOk = .ok ())
    (hunmerged : env.isBranchMerged b
      (if env.remoteMainExists then "origin/" ++ mb else mb) = false) :
    deleteCommand env pathArg false = (.abortUnmerged, []) := by
  unfold deleteCommand
  rw [hres]
  simp [hex, hgit, hcb, hb, hmw, hmb, hnotmain, hfetch, hunmerged]

/-- Witness for C2: deleting the unmerged `feature-x` workspace of the sample
repository without force aborts cleanly with no mutation. -/
theorem delete_unmerged_abort_witness :
    deleteCommand baseEnv (some "/ws/feature-x") false = (.abortUnmerged, []) :=
  delete_unmerged_abort baseEnv (some "/ws/feature-x") "/ws/feature-x" "feature-x"
    mainWt "main" rfl rfl rfl rfl (by decide)
    rfl rfl (by decide) rfl rfl

/-- C10: a target workspace in detached state (empty current branch) makes
`deleteCommand` fail with an error before any mutation, for either value of
the force flag. -/
theorem delete_detached_errors (env : GroveEnv) (pathArg : Option String) (force : Bool)
    (t : String)
    (hres : resolveDeleteTarget env pathArg = .ok t)
    (hex : env.pathExists t = true)
    (hgit : env.isGitRepository t = true)
    (hcb : env.getCurrentBranch t = .ok "") :
    deleteCommand env pathArg force = (.error "Could not determine current branch", []) := by
  unfold deleteCommand
  rw [hres]
  simp [hex, hgit, hcb]

/-- Witness for C10: deleting the detached feature workspace fails even with
force and performs no mutation. -/
theorem delete_detached_errors_witness :
    deleteCommand envDetached (some "/ws/feature-x") true
      = (.error "Could not determine current branch", []) :=
  delete_detached_errors envDetached (some "/ws/feature-x") true "/ws/feature-x"
    rfl rfl rfl rfl

/-! ## Claim theorems: fetch failure and prune -/

/-- C6 counterexample: with a configured remote whose fetch fails, both the
unforced delete flow and the prune flow terminate with the fetch error
instead of absorbing it and proceeding on local refs, so a fetch failure is
fatal to the enclosing flow. -/
theorem fetch_failure_fatal_cex :
    envFetchFail.remoteConfigured = true ∧ envFetchFail.fetchOk = false
    ∧ deleteCommand envFetchFail (some "/ws/feature-x") false = (.error "Failed to fetch", [])
    ∧ pruneCommand envFetchFail false false
        = (.error "Failed to fetch", [Event.pruneWorktrees]) := by
  refine ⟨rfl, rfl, rfl, rfl⟩

/-- C6 amended: a fetch is silently skipped only when no remote is
configured; when the remote is configured and the fetch fails, the error
propagates and aborts both the unforced delete flow (before any mutation) and
the prune flow (after only the metadata prune). -/
theorem fetch_failure_propagates (env : GroveEnv) (pathArg : Option String)
    (t b : String) (mw : WorktreeInfo) (mb r mb2 : String) (config : ProjectConfig)
    (force dryRun : Bool)
    (hrc : env.remoteConfigured = true) (hfo : env.fetchOk = false)
    (hres : resolveDeleteTarget env pathArg = .ok t)
    (hex : env.pathExists t = true)
    (hgit : env.isGitRepository t = true)
    (hcb : env.getCurrentBranch t = .ok b)
    (hb : b ≠ "")
    (hmw : env.worktrees.find? (fun w => w.isMain) = some mw)
    (hmb : env.getMainBranch t = .ok mb)
    (hnotmain : ¬(b = mb ∧ t = mw.path))
    (hgitcwd : env.isGitRepository env.cwd = true)
    (hroot : env.getRepoRoot env.cwd = .ok r)
    (hcfg : env.readConfig mw.path = .ok (some config))
    (hmb2 : env.getMainBranch r = .ok mb2) :
    deleteCommand env pathArg false = (.error "Failed to fetch", [])
    ∧ pruneCommand env force dryRun = (.error "Failed to fetch", [Event.pruneWorktrees]) := by
  have hfr : fetchRemote env.remoteConfigured env.fetchOk = .error "Failed to fetch" := by
    simp [fetchRemote, hrc, hfo]
  constructor
  · unfold deleteCommand
    rw [hres]
    simp [hex, hgit, hcb, hb, hmw, hmb, hnotmain, hfr]
  · unfold pruneCommand
    simp [hgitcwd, hroot, hmw, hcfg, hmb2, hfr]

/-- Witness for the amended C6 on the sample environment with a failing
fetch. -/
theorem fetch_failure_propagates_witness :
    deleteCommand envFetchFail (some "/ws/feature-x") false = (.error "Failed to fetch", [])
    ∧ pruneCommand envFetchFail true true
        = (.error "Failed to fetch", [Event.pruneWorktrees]) :=
  fetch_failure_propagates envFetchFail (some "/ws/feature-x") "/ws/feature-x" "feature-x"
    mainWt "main" "/repo" "main" demoConfig true true rfl rfl rfl rfl rfl rfl
    (by decide) rfl rfl (by decide) rfl rfl rfl rfl

/-- Characterization of the prune candidate loop as a filter. -/
theorem prunableLoop_eq_filter (f : String → Bool) (l : List WorktreeInfo) :
    prunableLoop f l
      = l.filter (fun w => !(strFalsy w.branch) && f (w.branch.getD "")) := by
  induction l with
  | nil => rfl
  | cons x rest ih =>
    by_cases hf : strFalsy x.branch = true
    · simp [prunableLoop, hf, List.filter_cons, ih]
    · rw [Bool.not_eq_true] at hf
      by_cases hm : f (x.branch.getD "") = true
      · simp [prunableLoop, hf, hm, List.filter_cons, ih]
      · rw [Bool.not_eq_true] at hm
        simp [prunableLoop, hf, hm, List.filter_cons, ih]

/-- C4: the prune candidate set is exactly the set of worktrees that are
non-primary, have a truthy (resolvable) branch, and whose branch the
merge oracle reports merged; detached worktrees are never candidates. -/
theorem prune_candidates_exact (f : String → Bool) (ws : List WorktreeInfo)
    (w : WorktreeInfo) :
    w ∈ prunableLoop f (ws.filter (fun x => !x.isMain))
      ↔ (w ∈ ws ∧ w.isMain = false ∧ strFalsy w.branch = false
          ∧ f (w.branch.getD "") = true) := by
  rw [prunableLoop_eq_filter, List.mem_filter, List.mem_filter]
  constructor
  · rintro ⟨⟨h1, h2⟩, h3⟩
    rw [Bool.not_eq_true'] at h2
    rcases Bool.and_eq_true_iff.mp h3 with ⟨h4, h5⟩
    rw [Bool.not_eq_true'] at h4
    exact ⟨h1, h2, h4, h5⟩
  · rintro ⟨h1, h2, h3, h4⟩
    refine ⟨⟨h1, ?_⟩, ?_⟩
    · rw [Bool.not_eq_true', h2]
    · rw [Bool.and_eq_true_iff]
      exact ⟨by rw [Bool.not_eq_true']; exact h3, h4⟩

/-- Witness for C4: in the sample repository the feature worktree is a
candidate when the merge oracle accepts its branch. -/
theorem prune_candidates_exact_witness :
    featWt ∈ prunableLoop (fun b => b == "feature-x")
      ([mainWt, featWt].filter (fun x => !x.isMain)) :=
  (prune_candidates_exact (fun b => b == "feature-x") [mainWt, featWt] featWt).mpr
    ⟨by decide, by decide, by decide, by decide⟩

/-! ## Claim theorems: resolver canonical path, create, parser, config -/

/-- C5 counterexample: for the token `Feature X` the sanitized-form canonical
workspace path exists and is a valid workspace, yet both the delete resolver
and the checkout resolver fail, because each tests the canonical path built
from the raw token instead of its sanitized form. -/
theorem resolver_raw_token_cex :
    sanitizeBranchName "Feature X" = "feature-x"
    ∧ envSanitizedOnly.pathExists (envSanitizedOnly.resolveFrom "/repo"
        ("../" ++ demoConfig.project ++ "__worktrees/" ++ sanitizeBranchName "Feature X")) = true
    ∧ envSanitizedOnly.isGitRepository "/repo/../proj__worktrees/feature-x" = true
    ∧ exceptIsOk (resolveDeleteTarget envSanitizedOnly (some "Feature X")) = false
    ∧ exceptIsOk (resolveCheckoutTarget envSanitizedOnly "Feature X" false) = false := by
  refine ⟨by decide, by decide, by decide, by decide, by decide⟩

/-- C5 amended: for a token that does not exist directly as a path, both the
delete resolver and the checkout resolver construct the canonical per-project
workspace path by joining the raw token (not its sanitized form) and test it
for existence; when that raw-token path exists as a valid workspace both
resolvers use it. -/
theorem resolver_raw_token (env : GroveEnv) (p : String) (shouldCreate : Bool)
    (mw : WorktreeInfo) (config : ProjectConfig) (r pp : String)
    (hdirect : env.pathExists (env.resolvePath p) = false)
    (hgitcwd : env.isGitRepository env.cwd = true)
    (hroot : env.getRepoRoot env.cwd = .ok r)
    (hmw : env.worktrees.find? (fun w => w.isMain) = some mw)
    (hcfg : env.readConfig mw.path = .ok (some config))
    (hpp : pp = env.resolveFrom mw.path ("../" ++ config.project ++ "__worktrees/" ++ p))
    (hppex : env.pathExists pp = true)
    (hppgit : env.isGitRepository pp = true) :
    resolveDeleteTarget env (some p) = env.getRepoRoot pp
    ∧ resolveCheckoutTarget env p shouldCreate = (env.getRepoRoot pp).map some := by
  subst hpp
  constructor
  · unfold resolveDeleteTarget
    simp [hdirect, hgitcwd, hroot, hmw, hcfg, hppex, hppgit]
  · unfold resolveCheckoutTarget
    simp [hdirect, hgitcwd, hroot, hmw, hcfg, hppex, hppgit]

/-- Witness for the amended C5: with the raw-token canonical directory
present, both resolvers resolve the token `Feature X` to it. -/
theorem resolver_raw_token_witness :
    resolveDeleteTarget envRawCanonical (some "Feature X")
      = envRawCanonical.getRepoRoot "/repo/../proj__worktrees/Feature X"
    ∧ resolveCheckoutTarget envRawCanonical "Feature X" false
      = (envRawCanonical.getRepoRoot "/repo/../proj__worktrees/Feature X").map some :=
  resolver_raw_token envRawCanonical "Feature X" false mainWt demoConfig "/repo"
    "/repo/../proj__worktrees/Feature X" rfl rfl rfl rfl rfl rfl rfl rfl

/-- C3 (code evaluation at the failing input): when the canonical target
directory of a feature already exists, `setupCommand` throws the
already-exists error instead of treating the situation as success, and
performs no mutation. -/
theorem setup_existing_path_throws :
    setupCommand envSetupExisting "setup-existing"
      = (.error "Target directory already exists: /repo/../proj__worktrees/setup-existing",
          []) := by
  decide

/-- C8 counterexample: porcelain output whose root record carries the bare
marker while a second record is on the default branch produces two records
with `isMain = true` (on a two-record list), so the two marking mechanisms
can each mark a distinct record. -/
theorem getWorktrees_two_primaries_cex :
    (getWorktreesModel twoPrimaryLines "main").countP (fun w => w.isMain) = 2
    ∧ (getWorktreesModel twoPrimaryLines "main").length = 2 := by
  refine ⟨by decide, by decide⟩

/-- C8 amended: a parsed record ends primary exactly when its block had the
root marker or its branch equals the resolved default branch; consequently
when exactly one parsed record satisfies that disjunction — the correctly
configured case — the final list has exactly one primary record. -/
theorem getWorktrees_unique_primary (lines : List String) (main : String)
    (h : (parseWorktreeLines (lines.filter (fun l => !(strTrim l == ""))) {}).countP
        (fun w => w.isMain || w.branch == some main) = 1) :
    (getWorktreesModel lines main).countP (fun w => w.isMain) = 1 := by
  unfold getWorktreesModel
  rw [markMain_countP]
  exact h

/-- Witness for the amended C8 on a correctly configured single-record
porcelain dump. -/
theorem getWorktrees_unique_primary_witness :
    (getWorktreesModel onePrimaryLines "main").countP (fun w => w.isMain) = 1 :=
  getWorktrees_unique_primary onePrimaryLines "main" (by decide)

/-- C9: `readProjectConfig` reports absence (ok none) exactly when the
configuration file does not exist at the derived path; a present but
malformed or schema-invalid file is an error, never absence. -/
theorem readProjectConfig_spec (fs : String → Option ConfigFileContent) (p : String) :
    (readProjectConfig fs p = .ok none ↔ fs (joinPath p ".grove.json") = none)
    ∧ (fs (joinPath p ".grove.json") = some ConfigFileContent.malformed →
        readProjectConfig fs p = .error "Failed to read project config") := by
  constructor
  · unfold readProjectConfig
    cases h : fs (joinPath p ".grove.json") with
    | none => simp
    | some v => cases v <;> simp [h]
  · intro h
    unfold readProjectConfig
    rw [h]

/-- Witness for C9: a malformed configuration file at `/repo` produces the
read error. -/
theorem readProjectConfig_spec_witness :
    readProjectConfig fsMalformed "/repo" = .error "Failed to read project config" :=
  (readProjectConfig_spec fsMalformed "/repo").2 (by decide)
